import Mathlib

/-!
Verification of the moat intel-pipeline core against its specification.

This file shallowly embeds the parts of the repository that the claims
concern: the data model (`intel/models.py`), the two-phase deduplication
engine (`intel/process/dedup.py`), the clustering grouping step
(`intel/process/cluster.py`), the summarization orchestrator and its
JSON-recovery ladder (`intel/synthesize/summarizer.py`), the cross-run
trend matcher (`intel/analyze/trends.py`), and the run coordinator
(`intel/pipeline.py`).

Modelling conventions:
* Python floats are modelled as exact rationals (`ℚ`); timestamps as
  rationals (seconds since an arbitrary epoch).
* External calls (embedding model, LLM provider, scipy clustering,
  network fetches) are parameters of the embedded functions: a function
  that calls the provider takes the provider's response as an argument,
  and a stage that can raise is modelled with `Except`.
* Python `None` becomes `Option.none`; an exception that the code
  catches broadly is modelled as `Except.error ()`.
-/

namespace Moat

/-! ## JSON values and a model of `json.loads`

`intel/synthesize/summarizer.py` recovers structured data from raw LLM
text with `json.loads`.  We model Python's default JSON acceptance:
objects, arrays, double-quoted strings with the standard escapes,
numbers (kept as their lexeme), `true`/`false`/`null`, and the Python
extensions `NaN`/`Infinity`/`-Infinity`; leading/trailing JSON
whitespace (space, tab, newline, carriage return) is skipped and any
other trailing input makes the parse fail ("Extra data"). -/

inductive Json where
  | null : Json
  | bool (b : Bool) : Json
  | num (lexeme : String) : Json
  | str (s : String) : Json
  | arr (elems : List Json) : Json
  | obj (fields : List (String × Json)) : Json
deriving Repr

def isJsonWs (c : Char) : Bool :=
  c = ' ' || c = '\t' || c = '\n' || c = '\r'

def skipWs : List Char → List Char
  | [] => []
  | c :: cs => if isJsonWs c then skipWs cs else c :: cs

def hexVal (c : Char) : Option Nat :=
  if '0' ≤ c ∧ c ≤ '9' then some (c.toNat - 48)
  else if 'a' ≤ c ∧ c ≤ 'f' then some (c.toNat - 87)
  else if 'A' ≤ c ∧ c ≤ 'F' then some (c.toNat - 55)
  else none

/-- String bodies after the opening quote.  `\uXXXX` escapes are mapped
through `Char.ofNat`; surrogate-pair recombination (a Python `str` detail
that no claim exercises) is not modelled.  Python's strict mode rejects
raw control characters below U+0020. -/
def parseStringBody (acc : List Char) : List Char → Option (String × List Char)
  | [] => none
  | '"' :: rest => some (String.mk acc.reverse, rest)
  | '\\' :: rest =>
    match rest with
    | '"' :: r2 => parseStringBody ('"' :: acc) r2
    | '\\' :: r2 => parseStringBody ('\\' :: acc) r2
    | '/' :: r2 => parseStringBody ('/' :: acc) r2
    | 'b' :: r2 => parseStringBody ('\x08' :: acc) r2
    | 'f' :: r2 => parseStringBody ('\x0c' :: acc) r2
    | 'n' :: r2 => parseStringBody ('\n' :: acc) r2
    | 'r' :: r2 => parseStringBody ('\r' :: acc) r2
    | 't' :: r2 => parseStringBody ('\t' :: acc) r2
    | 'u' :: a :: b :: c :: d :: r2 =>
      match hexVal a, hexVal b, hexVal c, hexVal d with
      | some ha, some hb, some hc, some hd =>
        parseStringBody (Char.ofNat (((ha * 16 + hb) * 16 + hc) * 16 + hd) :: acc) r2
      | _, _, _, _ => none
    | _ => none
  | c :: rest =>
    if c.toNat < 32 then none else parseStringBody (c :: acc) rest

def isDigitChar (c : Char) : Bool := '0' ≤ c ∧ c ≤ '9'

/-- The JSON number grammar `-?(0|[1-9][0-9]*)(\.[0-9]+)?([eE][-+]?[0-9]+)?`,
returning the matched lexeme (Python turns it into an int or float; no
claim depends on the numeric value). -/
def parseNumber (cs : List Char) : Option (String × List Char) :=
  let (sign, cs1) :=
    match cs with
    | '-' :: r => (['-'], r)
    | _ => (([] : List Char), cs)
  let intPart : Option (List Char × List Char) :=
    match cs1 with
    | '0' :: r => some (['0'], r)
    | c :: r =>
      if '1' ≤ c ∧ c ≤ '9' then
        let (ds, r') := r.span isDigitChar
        some (c :: ds, r')
      else none
    | [] => none
  match intPart with
  | none => none
  | some (ip, cs2) =>
    let (fp, cs3) :=
      match cs2 with
      | '.' :: r =>
        let (ds, r') := r.span isDigitChar
        if ds.isEmpty then (([] : List Char), cs2) else ('.' :: ds, r')
      | _ => (([] : List Char), cs2)
    -- Python's regex requires at least one digit after '.'; with none the
    -- frac part simply does not participate in the match.
    let (ep, cs4) :=
      match cs3 with
      | c :: r =>
        if c = 'e' ∨ c = 'E' then
          let (sgn, r1) :=
            match r with
            | s :: r1 => if s = '+' ∨ s = '-' then ([s], r1) else (([] : List Char), r)
            | [] => (([] : List Char), r)
          let (ds, r2) := r1.span isDigitChar
          if ds.isEmpty then (([] : List Char), cs3) else (c :: (sgn ++ ds), r2)
        else (([] : List Char), cs3)
      | [] => (([] : List Char), cs3)
    some (String.mk (sign ++ ip ++ fp ++ ep), cs4)

mutual

def parseVal : Nat → List Char → Option (Json × List Char)
  | 0, _ => none
  | _ + 1, [] => none
  | fuel + 1, c :: cs =>
    match c, cs with
    | '"', rest => (parseStringBody [] rest).map fun p => (Json.str p.1, p.2)
    | '\x7b', rest =>
      match skipWs rest with
      | '\x7d' :: r2 => some (Json.obj [], r2)
      | r2 => parseMembers fuel r2 []
    | '[', rest =>
      match skipWs rest with
      | ']' :: r2 => some (Json.arr [], r2)
      | r2 => parseItems fuel r2 []
    | 't', 'r' :: 'u' :: 'e' :: rest => some (Json.bool true, rest)
    | 'f', 'a' :: 'l' :: 's' :: 'e' :: rest => some (Json.bool false, rest)
    | 'n', 'u' :: 'l' :: 'l' :: rest => some (Json.null, rest)
    | 'N', 'a' :: 'N' :: rest => some (Json.num "NaN", rest)
    | 'I', 'n' :: 'f' :: 'i' :: 'n' :: 'i' :: 't' :: 'y' :: rest =>
      some (Json.num "Infinity", rest)
    | '-', 'I' :: 'n' :: 'f' :: 'i' :: 'n' :: 'i' :: 't' :: 'y' :: rest =>
      some (Json.num "-Infinity", rest)
    | _, _ => (parseNumber (c :: cs)).map fun p => (Json.num p.1, p.2)

def parseMembers : Nat → List Char → List (String × Json) → Option (Json × List Char)
  | 0, _, _ => none
  | fuel + 1, cs, acc =>
    match cs with
    | '"' :: rest =>
      match parseStringBody [] rest with
      | none => none
      | some (key, r1) =>
        match skipWs r1 with
        | ':' :: r2 =>
          match parseVal fuel (skipWs r2) with
          | none => none
          | some (v, r3) =>
            match skipWs r3 with
            | ',' :: r4 => parseMembers fuel (skipWs r4) (acc ++ [(key, v)])
            | '\x7d' :: r4 => some (Json.obj (acc ++ [(key, v)]), r4)
            | _ => none
        | _ => none
    | _ => none

def parseItems : Nat → List Char → List Json → Option (Json × List Char)
  | 0, _, _ => none
  | fuel + 1, cs, acc =>
    match parseVal fuel cs with
    | none => none
    | some (v, r1) =>
      match skipWs r1 with
      | ',' :: r2 => parseItems fuel (skipWs r2) (acc ++ [v])
      | ']' :: r2 => some (Json.arr (acc ++ [v]), r2)
      | _ => none

end

/-- Model of `json.loads`: parse one value surrounded by optional JSON
whitespace; anything left over is "Extra data" and the parse fails. -/
def jsonLoads (s : String) : Option Json :=
  match parseVal (s.length + 1) (skipWs s.data) with
  | some (v, rest) => if skipWs rest = [] then some v else none
  | none => none

/-! ## Data model (`intel/models.py`)

Timestamps are rationals (seconds since an arbitrary epoch); Python's
`int | None` fields become `Option Int`. -/

structure Article where
  url : String
  title : String
  content : String
  source_name : String
  source_type : String
  topic : String
  published_at : Option ℚ := none
  fetched_at : ℚ := 0
  content_hash : String := ""
  embedding : List ℚ := []
  cluster_id : Option Int := none
  id : Option Int := none
deriving Repr, DecidableEq

/-- `Article.__post_init__`: if no content hash was supplied and the body
is non-empty, set the hash to the first 16 hex digits of the SHA-256 of
the content.  The digest itself is the external `hashlib` call, passed in
as `sha256hex` (for the real digest this is a 64-character hex string). -/
def postInit (sha256hex : String → String) (a : Article) : Article :=
  if a.content_hash = "" ∧ a.content ≠ "" then
    { a with content_hash := (sha256hex a.content).take 16 }
  else a

structure Cluster where
  topic : String
  label : String
  article_count : Nat
  run_id : Int
  articles : List Article := []
  id : Option Int := none
deriving Repr, DecidableEq

/-- `Summary` narrative fields hold whatever runtime value
`data.get(...)` produced, so they are modelled as `Json` values (the
dataclass annotations promise `str` but Python does not enforce them). -/
structure Summary where
  cluster_id : Option Int
  depth : String
  what_happened : Json
  why_it_matters : Json
  whats_next : Json
  confidence : Json
  sources : Json
  id : Option Int := none
deriving Repr

structure PipelineRun where
  started_at : ℚ := 0
  finished_at : Option ℚ := none
  status : String := "running"
  articles_fetched : Nat := 0
  articles_after_dedup : Nat := 0
  clusters_formed : Nat := 0
  llm_tokens_used : Nat := 0
  llm_cost_usd : ℚ := 0
  id : Option Int := none
deriving Repr, DecidableEq

/-- The `Trend` dataclass is imported from `intel.models` but missing
from the sources; its five fields are reconstructed from its only
constructor call (`intel/analyze/trends.py`, lines 125-134) and its
readers in the renderers. -/
structure Trend where
  topic : String
  current_label : String
  previous_label : String
  trend_type : String
  description : String
deriving Repr, DecidableEq

/-- `CostTracker` (`intel/pipeline.py`): run-scoped accumulator of token
usage and cost. -/
structure CostTracker where
  total_input_tokens : Nat := 0
  total_output_tokens : Nat := 0
  total_cost_usd : ℚ := 0
deriving Repr, DecidableEq

def CostTracker.add (a b : CostTracker) : CostTracker :=
  { total_input_tokens := a.total_input_tokens + b.total_input_tokens
    total_output_tokens := a.total_output_tokens + b.total_output_tokens
    total_cost_usd := a.total_cost_usd + b.total_cost_usd }

/-! ## Dedup engine (`intel/process/dedup.py`)

`DedupProcessor.process` has two phases.  Phase 1 walks the batch in
arrival order keeping a set of seen content hashes.  Phase 2 embeds the
survivors (an external model call) and runs the pairwise cosine-drop
loop; the similarity values `cosine_similarity(embeddings[i],
embeddings[j])` are supplied as the function `sim` on phase-1 indices,
and the embedding vectors stored on the articles as `embs`. -/

structure DedupCfg where
  enabled : Bool := true
  -- the default threshold 0.85 (written with `mkRat` so that concrete
  -- runs of the model reduce inside the kernel)
  cosine_threshold : ℚ := mkRat 85 100
deriving Repr, DecidableEq

/-- Phase 1: exact hash dedup, first-seen wins. -/
def hashDedup (seen : List String) : List Article → List Article
  | [] => []
  | a :: rest =>
    if a.content_hash ∈ seen then hashDedup seen rest
    else a :: hashDedup (a.content_hash :: seen) rest

/-- One outer iteration of the phase-2 loop: if record `i` is still kept,
every later record `j` that is at least `θ`-similar to it is dropped
(`keep[j] = False`); records at or before `i`, and records beyond the
batch, are untouched. -/
def sweep (sim : Nat → Nat → ℚ) (θ : ℚ) (n : Nat) (keep : Nat → Bool) (i : Nat) :
    Nat → Bool :=
  if keep i then
    fun j => if i < j ∧ j < n then keep j && decide (sim i j < θ) else keep j
  else keep

/-- The final `keep` array of the phase-2 double loop over `n` records. -/
def phase2Keep (sim : Nat → Nat → ℚ) (θ : ℚ) (n : Nat) : Nat → Bool :=
  (List.range n).foldl (sweep sim θ n) (fun _ => true)

/-- `[a for a, k in zip(hash_deduped, keep) if k]`. -/
def simDedup (sim : Nat → Nat → ℚ) (θ : ℚ) (l : List Article) : List Article :=
  (l.enum.filter fun p => phase2Keep sim θ l.length p.1).map Prod.snd

/-- Store the freshly computed embeddings on the phase-1 survivors
(`article.embedding = embeddings[i].tolist()`). -/
def withEmbeddings (embs : Nat → List ℚ) (l : List Article) : List Article :=
  l.enum.map fun p => { p.2 with embedding := embs p.1 }

/-- `DedupProcessor.process`: phase 1, then — when enabled and at least
two records survive — embedding storage and the phase-2 similarity drop
pass at `cfg.cosine_threshold`. -/
def dedupProcess (cfg : DedupCfg) (embs : Nat → List ℚ) (sim : Nat → Nat → ℚ)
    (articles : List Article) : List Article :=
  if !cfg.enabled then articles
  else
    let hd := hashDedup [] articles
    if hd.length < 2 then hd
    else simDedup sim cfg.cosine_threshold (withEmbeddings embs hd)

/-! ## Clustering engine grouping (`intel/process/cluster.py`)

Label assignment itself is the external scipy call inside
`ClusterProcessor.process`; `build_clusters` only groups articles by
their assigned `cluster_id`.  Python dicts preserve key insertion order,
modelled here by an association list that appends new keys at the end. -/

def addToGroup (m : List (Int × List Article)) (k : Int) (a : Article) :
    List (Int × List Article) :=
  match m with
  | [] => [(k, [a])]
  | (k', l) :: rest =>
    if k' = k then (k', l ++ [a]) :: rest else (k', l) :: addToGroup rest k a

/-- `cluster_map.setdefault(article.cluster_id, []).append(article)` over
the batch, skipping articles without a cluster id. -/
def groupByClusterId (articles : List Article) : List (Int × List Article) :=
  articles.foldl
    (fun m a => match a.cluster_id with
      | some k => addToGroup m k a
      | none => m) []

/-- `ClusterProcessor.build_clusters`. -/
def buildClusters (articles : List Article) (topic : String) (run_id : Int) :
    List Cluster :=
  (groupByClusterId articles).map fun p =>
    { topic := topic, label := "Cluster " ++ toString p.1,
      article_count := p.2.length, run_id := run_id, articles := p.2, id := none }

/-- The per-topic cluster-building loop of `run_pipeline`
(`intel/pipeline.py`, lines 128-137): for each topic, filter the batch to
that topic and group it. -/
def buildAllClusters (topics : List String) (articles : List Article) (run_id : Int) :
    List Cluster :=
  (topics.map fun t =>
    let topicArticles := articles.filter fun a => a.topic == t
    if topicArticles.isEmpty then [] else buildClusters topicArticles t run_id).flatten

/-! ## Summarization orchestrator (`intel/synthesize/summarizer.py`)

The provider call is external; the raw response text for a cluster is an
input.  A broadly caught exception becomes `Except.error ()`. -/

/-- `_normalize_quotes`: the six chained `str.replace` calls.  Every
pattern and replacement is a single character, so the chain is exactly
this character substitution (left/right double quote U+201C/U+201D and
double prime U+2033 become `"`; left/right single quote U+2018/U+2019
and prime U+2032 become `'`). -/
def normalizeQuotes (text : String) : String :=
  String.mk (text.data.map fun c =>
    if c = '\u201C' ∨ c = '\u201D' ∨ c = '\u2033' then '"'
    else if c = '\u2018' ∨ c = '\u2019' ∨ c = '\u2032' then '\x27'
    else c)

/-- `_try_parse`: `json.loads` on the raw text, then on the
quote-normalized text. -/
def tryParse (text : String) : Option Json :=
  match jsonLoads text with
  | some v => some v
  | none => jsonLoads (normalizeQuotes text)

def ticks : List Char := "\x60\x60\x60".data

def startsWithL : List Char → List Char → Bool
  | [], _ => true
  | _ :: _, [] => false
  | p :: ps, c :: cs => p = c && startsWithL ps cs

/-- Characters matched by the regex class `\s` (ASCII part; exotic
Unicode whitespace is not exercised by anything in this development). -/
def isRegexSpace (c : Char) : Bool :=
  c = ' ' || c = '\t' || c = '\n' || c = '\r' || c = '\x0b' || c = '\x0c'

/-- The tail `(.*?)\n?` + three backticks of the fence regex: advance the
non-greedy group one character at a time, at each split point trying a
newline followed by the closing fence first, then the closing fence
directly. -/
def fenceClose (acc : List Char) : List Char → Option String
  | [] => none
  | c :: cs =>
    if c = '\n' && startsWithL ticks cs then some (String.mk acc.reverse)
    else if startsWithL ticks (c :: cs) then some (String.mk acc.reverse)
    else fenceClose (c :: acc) cs

/-- Match the fence regex (three backticks, optional `json`, `\s*\n?`,
non-greedy body, `\n?`, three backticks) anchored at the head of `cs`.
Since a maximal `\s*` absorbs any newline that `\n?` could take and
whitespace never contains the closing fence, the greedy `\s*\n?` step is
a simple `dropWhile`. -/
def fenceMatchAt (cs : List Char) : Option String :=
  if startsWithL ticks cs then
    let p0 := cs.drop 3
    let withJson :=
      if startsWithL "json".data p0 then
        fenceClose [] ((p0.drop 4).dropWhile isRegexSpace)
      else none
    match withJson with
    | some g => some g
    | none => fenceClose [] (p0.dropWhile isRegexSpace)
  else none

/-- `re.search` over the fence pattern: try each start position from the
left. -/
def fenceSearch : List Char → Option String
  | [] => none
  | c :: cs =>
    match fenceMatchAt (c :: cs) with
    | some g => some g
    | none => fenceSearch cs

/-- `re.search(r"\x7b.*\x7d", text, re.DOTALL)`: a greedy dot-all `.*`
matches from the first opening brace to the last closing brace of the
whole text (the match exists iff some closing brace lies after the first
opening brace). -/
def braceSpan (s : String) : Option String :=
  let cs := s.data
  match cs.findIdx? (fun c => c = '\x7b'),
        (cs.reverse.findIdx? (fun c => c = '\x7d')).map (fun k => cs.length - 1 - k) with
  | some i, some j =>
    if i < j then some (String.mk ((cs.drop i).take (j - i + 1))) else none
  | _, _ => none

/-- `_extract_json`: raw (and quote-normalized) parse, then the fenced
block, then the brace span; a failed parse of the fenced block falls
through to the brace span. -/
def extractJson (text : String) : Option Json :=
  match tryParse text with
  | some v => some v
  | none =>
    let fenced :=
      match fenceSearch text.data with
      | some g => tryParse g
      | none => none
    match fenced with
    | some v => some v
    | none =>
      match braceSpan text with
      | some g => tryParse g
      | none => none

/-- `dict` lookup: a later duplicate key in the JSON source overwrites an
earlier one, hence the search from the right. -/
def jget (fields : List (String × Json)) (key : String) : Option Json :=
  (fields.reverse.find? fun p => p.1 == key).map Prod.snd

/-- `data.get(key, dflt)`. -/
def jgetD (fields : List (String × Json)) (key : String) (dflt : Json) : Json :=
  (jget fields key).getD dflt

/-- Python truthiness of a decoded JSON value. -/
def jTruthy : Json → Bool
  | .null => false
  | .bool b => b
  | .num lx =>
    if lx = "NaN" ∨ lx = "Infinity" ∨ lx = "-Infinity" then true
    else
      -- a numeric lexeme denotes zero iff its mantissa has no digit 1-9
      let mantissa := (lx.data.dropWhile (fun c => c = '-')).takeWhile
        (fun c => c ≠ 'e' ∧ c ≠ 'E')
      mantissa.any fun c => '1' ≤ c ∧ c ≤ '9'
  | .str s => !(s = "")
  | .arr l => !l.isEmpty
  | .obj f => !f.isEmpty

/-- Python `str()` of a decoded JSON value, used where an f-string
interpolates a narrative field.  Number and container rendering are
simplified (the pipeline only ever renders strings there). -/
def pyStr : Json → String
  | .str s => s
  | .null => "None"
  | .bool b => if b then "True" else "False"
  | .num lx => lx
  | .arr _ => "[...]"
  | .obj _ => "\x7b...\x7d"

/-- `cluster.id or 0`. -/
def idOr0 (o : Option Int) : Int := o.getD 0

/-- `if data.get("label"): cluster.label = data["label"]` — a truthy
non-string value would put a non-`str` into the `label` slot, which
nothing downstream could render; only string labels are modelled. -/
def applyLabel (cluster : Cluster) (fields : List (String × Json)) : Cluster :=
  match jget fields "label" with
  | some (.str s) => if s = "" then cluster else { cluster with label := s }
  | _ => cluster

def labelGetTruthy (fields : List (String × Json)) : Bool :=
  match jget fields "label" with
  | some v => jTruthy v
  | none => false

/-- `_summarize_single`, given the raw provider response. -/
def summarizeSingle (cluster : Cluster) (article : Article) (raw : String) :
    Except Unit (Summary × Cluster) :=
  let fieldsE : Except Unit (List (String × Json)) :=
    match extractJson raw with
    | none =>
      .ok [("what_happened", .str (raw.take 500)),
           ("why_it_matters", .str "Parse error."),
           ("whats_next", .str "Retry."),
           ("confidence", .str "developing")]
    | some (.obj fs) => .ok fs
    | some _ => .error ()    -- `data.get` on a non-dict raises
  match fieldsE with
  | .error _ => .error ()
  | .ok fs =>
    let c1 :=
      if labelGetTruthy fs then applyLabel cluster fs
      else if startsWithL "Cluster ".data cluster.label.data then
        { cluster with label := article.title }
      else cluster
    .ok ({ cluster_id := some (idOr0 cluster.id),
           depth := "briefing",
           what_happened := jgetD fs "what_happened" (.str ""),
           why_it_matters := jgetD fs "why_it_matters" (.str ""),
           whats_next := jgetD fs "whats_next" (.str ""),
           confidence := jgetD fs "confidence" (.str "developing"),
           sources := .arr [.str article.source_name] }, c1)

/-- The multi-article branch of `summarize_cluster`. -/
def summarizeMulti (cluster : Cluster) (raw : String) :
    Except Unit (Summary × Cluster) :=
  match extractJson raw with
  | none =>
    let c1 :=
      if startsWithL "Cluster ".data cluster.label.data ∧ !cluster.articles.isEmpty then
        match cluster.articles with
        | a :: _ => { cluster with label := a.title }
        | [] => cluster
      else cluster
    .ok ({ cluster_id := some (idOr0 cluster.id),
           depth := "briefing",
           what_happened := .str (raw.take 500),
           why_it_matters := .str "Parse error â€” raw LLM output used.",
           whats_next := .str "Retry with different prompt.",
           confidence := .str "developing",
           sources := .arr (cluster.articles.map fun a => .str a.source_name) }, c1)
  | some (.obj fs) =>
    let c1 := if labelGetTruthy fs then applyLabel cluster fs else cluster
    .ok ({ cluster_id := some (idOr0 cluster.id),
           depth := "briefing",
           what_happened := jgetD fs "what_happened" (.str ""),
           why_it_matters := jgetD fs "why_it_matters" (.str ""),
           whats_next := jgetD fs "whats_next" (.str ""),
           confidence := jgetD fs "confidence" (.str "developing"),
           sources := jgetD fs "sources"
             (.arr (cluster.articles.map fun a => .str a.source_name)) }, c1)
  | some _ => .error ()

/-- `summarize_cluster`: the single-article prompt variant is taken
exactly when the cluster has one member. -/
def summarizeCluster (cluster : Cluster) (raw : String) :
    Except Unit (Summary × Cluster) :=
  match cluster.articles with
  | [a] => summarizeSingle cluster a raw
  | _ => summarizeMulti cluster raw

/-- `_safe_summarize`: a failed provider call (`Except.error` from
`responses`) or an exception inside `summarize_cluster` is logged and
becomes `None`. -/
def safeSummarize (responses : Cluster → Except Unit String) (c : Cluster) :
    Option Summary :=
  match responses c with
  | .error _ => none
  | .ok raw =>
    match summarizeCluster c raw with
    | .ok (s, _) => some s
    | .error _ => none

/-- `summarize_all_clusters`: `asyncio.gather` preserves argument order
and the semaphore only bounds concurrency, so the result is the ordered
list of per-cluster outcomes with the `None`s removed. -/
def summarizeAllClusters (responses : Cluster → Except Unit String)
    (clusters : List Cluster) : List Summary :=
  (clusters.map (safeSummarize responses)).filterMap id

/-! ## Trend matcher (`intel/analyze/trends.py`) -/

def matchThreshold : ℚ := mkRat 55 100

def confidenceOrder : List String :=
  ["speculative", "developing", "likely", "confirmed"]

/-- `confidence_order.index(value)`: `ValueError` (absent, or a non-`str`
value) becomes `none`. -/
def confIndex (v : Json) : Option Nat :=
  match v with
  | .str s => confidenceOrder.indexOf? s
  | _ => none

/-- `_classify_trend`. -/
def classifyTrend (current : Summary) (previous : Option Summary) : String :=
  match previous with
  | none => "continuing"
  | some prev =>
    match confIndex current.confidence, confIndex prev.confidence with
    | some ci, some pi =>
      if pi < ci then "escalating"
      else if ci < pi then "de-escalating"
      else "continuing"
    | _, _ => "continuing"

/-- Splitting on whitespace runs (Python `str.split()` with no
argument), dropping empty pieces. -/
def splitWsAux (cur : List Char) : List Char → List String
  | [] => if cur.isEmpty then [] else [String.mk cur.reverse]
  | c :: rest =>
    if c.isWhitespace then
      if cur.isEmpty then splitWsAux [] rest
      else String.mk cur.reverse :: splitWsAux [] rest
    else splitWsAux (c :: cur) rest

/-- `text.lower().split()`: a bag of lower-cased words (`Char.toLower`
is the ASCII lowering, which matches Python on the ASCII text the
pipeline produces; likewise the ASCII whitespace set). -/
def wordSet (text : String) : Finset String :=
  (splitWsAux [] (text.data.map Char.toLower)).toFinset

/-- The bag of words of `f"{label} {what_happened}".lower()`. -/
def matchTextWords (label : String) (wh : Json) : Finset String :=
  wordSet (label ++ " " ++ pyStr wh)

/-- `len(intersection) / len(union)` as an exact rational (`0/0 = 0` in
`ℚ`, and the code never divides by zero because it skips empty word
sets). -/
def jaccard (a b : Finset String) : ℚ :=
  ((a ∩ b).card : ℚ) / ((a ∪ b).card : ℚ)

/-- One iteration of the candidate loop of `_find_best_match`: skip
other topics, summary-less pairs and empty word sets; otherwise update
the running best on a strictly larger Jaccard score. -/
def bestStep (current : Cluster) (currentWords : Finset String)
    (st : ℚ × Option (Cluster × Summary)) (p : Cluster × Option Summary) :
    ℚ × Option (Cluster × Summary) :=
  if p.1.topic ≠ current.topic then st
  else
    match p.2 with
    | none => st
    | some prevSummary =>
      let prevWords := matchTextWords p.1.label prevSummary.what_happened
      if currentWords = ∅ ∨ prevWords = ∅ then st
      else
        let score := jaccard currentWords prevWords
        if st.1 < score then (score, some (p.1, prevSummary)) else st

/-- `_find_best_match`, with the prior run pairs supplied as input. -/
def findBestMatch (current : Cluster) (currentSummary : Summary)
    (prevPairs : List (Cluster × Option Summary)) : Option Trend :=
  let currentWords := matchTextWords current.label currentSummary.what_happened
  let best := prevPairs.foldl (bestStep current currentWords) ((0 : ℚ), none)
  if best.1 < matchThreshold then none
  else
    match best.2 with
    | none => none
    | some (prevCluster, prevSummary) =>
      some { topic := current.topic,
             current_label := current.label,
             previous_label := prevCluster.label,
             trend_type := classifyTrend currentSummary (some prevSummary),
             description := "Story continues from previous run: \x27" ++
               prevCluster.label ++ "\x27 → \x27" ++ current.label ++ "\x27" }

/-- The Jaccard score a prior (cluster, summary) pair offers, `none`
for pairs of another topic or without a summary. -/
def pairScore (current : Cluster) (currentWords : Finset String)
    (p : Cluster × Option Summary) : Option ℚ :=
  match p.2 with
  | some ps =>
    if p.1.topic = current.topic then
      some (jaccard currentWords (matchTextWords p.1.label ps.what_happened))
    else none
  | none => none

/-- Best Jaccard score over the same-topic prior pairs that carry a
summary — the quantity the specification's threshold condition speaks
about (an empty word set scores `0` here, exactly the pairs the loop
skips without scoring). -/
def bestJaccard (current : Cluster) (currentSummary : Summary)
    (prevPairs : List (Cluster × Option Summary)) : ℚ :=
  (prevPairs.filterMap
    (pairScore current
      (matchTextWords current.label currentSummary.what_happened))).foldl max 0

/-! ## Run coordinator (`intel/pipeline.py`)

`run_pipeline` is embedded as a function of an environment that carries
the outcomes of every external interaction: the joined ingestion results
(each failed source×topic unit is caught and contributes `[]`), the
dedup and clustering stages as fallible functions (their internal
embedding/scipy calls can raise, and such a failure is not isolated),
the per-cluster provider responses, the cost-ledger contributions
recorded during summarization and analysis, and whether report
formatting raises.  Analyzer failures (caught per analyzer), PDF
generation failures and delivery failures (all caught) cannot alter
control flow and are not given failure injection points; their only
footprint is the `anaTrack` ledger contribution.  DB row ids are
modelled as sequential integers. -/

inductive DigestKind where
  | narrative : DigestKind
  | fallback : DigestKind
deriving Repr, DecidableEq

structure PipelineEnv where
  fetchResults : List (Except Unit (List Article))
  topics : List String
  now : ℚ := 0
  maxAgeHours : ℚ := 24
  maxPerTopic : Nat := 30
  dedupStage : List Article → Except Unit (List Article)
  clusterStage : List Article → Except Unit (List Article)
  responses : Cluster → Except Unit String
  sumTrack : CostTracker := {}
  anaTrack : CostTracker := {}
  formatRaises : Bool := false

structure RunOutcome where
  run : PipelineRun
  raised : Bool
  finishCount : Nat
  insertedSummaries : List Summary
  builtClusters : List Cluster
  digest : Option DigestKind
  ledger : CostTracker

/-- `_filter_articles`: drop articles older than `maxAgeHours` (only
when they carry a publish timestamp), then cap each topic at
`maxPerTopic`, both preserving order. -/
def updateCount : List (String × Nat) → String → Nat → List (String × Nat)
  | [], t, v => [(t, v)]
  | (k, n) :: rest, t, v =>
    if k == t then (k, v) :: rest else (k, n) :: updateCount rest t v

def filterArticles (now maxAgeHours : ℚ) (maxPerTopic : Nat)
    (articles : List Article) : List Article :=
  let aged := articles.filter fun a =>
    match a.published_at with
    | some t => decide ((now - t) / 3600 ≤ maxAgeHours)
    | none => true
  (aged.foldl
    (fun (st : List (String × Nat) × List Article) a =>
      let count := ((st.1.find? fun p => p.1 == a.topic).map Prod.snd).getD 0
      if count < maxPerTopic then
        (updateCount st.1 a.topic (count + 1), st.2 ++ [a])
      else st)
    ([], [])).2

/-- The summary backfill-and-insert loop (`intel/pipeline.py`, lines
152-158): a summary whose `cluster_id` is `0` is assigned the id of the
first cluster that has members (the scan re-checks that the summary id
is still unset, so at most one assignment happens per summary); all
summaries are then persisted in order. -/
def backfillSummaries (summaries : List Summary) (clusters : List Cluster) :
    List Summary :=
  summaries.map fun s =>
    if s.cluster_id = some 0 then
      match clusters.find? (fun c => !c.articles.isEmpty) with
      | some c => { s with cluster_id := c.id }
      | none => s
    else s

/-- Joined ingestion results, in `asyncio.gather` argument order; a unit
that raised was caught and contributes `[]`. -/
def joinFetched (rs : List (Except Unit (List Article))) : List Article :=
  (rs.map fun r =>
    match r with
    | .ok l => l
    | .error _ => []).flatten

/-- The `except` block of `run_pipeline`: mark failed, set the finish
timestamp, copy the ledger totals into the run counters, finalize, and
re-raise. -/
def failRun (r : PipelineRun) (now : ℚ) (ledger : CostTracker)
    (ins : List Summary) (cls : List Cluster) : RunOutcome :=
  { run := { r with
      status := "failed"
      finished_at := some now
      llm_tokens_used := ledger.total_input_tokens + ledger.total_output_tokens
      llm_cost_usd := ledger.total_cost_usd }
    raised := true, finishCount := 1, insertedSummaries := ins,
    builtClusters := cls, digest := none, ledger := ledger }

def runPipeline (env : PipelineEnv) : RunOutcome :=
  let run0 : PipelineRun := { started_at := env.now }
  let articles := joinFetched env.fetchResults
  let run1 := { run0 with articles_fetched := articles.length }
  if articles.isEmpty then
    -- zero records after ingestion: complete immediately (the ledger is
    -- still fresh here, so the zero counters already equal its totals)
    { run := { run1 with status := "completed", finished_at := some env.now },
      raised := false, finishCount := 1, insertedSummaries := [],
      builtClusters := [], digest := none, ledger := {} }
  else
    let filtered := filterArticles env.now env.maxAgeHours env.maxPerTopic articles
    let stored := filtered.enum.map fun p => { p.2 with id := some ((p.1 : Int) + 1) }
    match env.dedupStage stored with
    | .error _ => failRun run1 env.now {} [] []
    | .ok deduped =>
      let run2 := { run1 with articles_after_dedup := deduped.length }
      match env.clusterStage deduped with
      | .error _ => failRun run2 env.now {} [] []
      | .ok clustered =>
        let clusters := (buildAllClusters env.topics clustered 1).enum.map
          fun p => { p.2 with id := some ((p.1 : Int) + 1) }
        let run3 := { run2 with clusters_formed := clusters.length }
        let summaries := summarizeAllClusters env.responses clusters
        let inserted := backfillSummaries summaries clusters
        let ledger :=
          if summaries.isEmpty then env.sumTrack
          else env.sumTrack.add env.anaTrack
        let digestChoice :=
          if summaries.isEmpty then DigestKind.fallback else DigestKind.narrative
        if env.formatRaises then failRun run3 env.now ledger inserted clusters
        else
          { run := { run3 with
              status := "completed"
              finished_at := some env.now
              llm_tokens_used :=
                ledger.total_input_tokens + ledger.total_output_tokens
              llm_cost_usd := ledger.total_cost_usd }
            raised := false, finishCount := 1, insertedSummaries := inserted,
            builtClusters := clusters, digest := some digestChoice,
            ledger := ledger }

/-! ## Helper lemmas: exact dedup -/

theorem hashDedup_sublist (seen : List String) (l : List Article) :
    (hashDedup seen l).Sublist l := by
  induction l generalizing seen with
  | nil => simp [hashDedup]
  | cons a rest ih =>
    by_cases h : a.content_hash ∈ seen
    · simp only [hashDedup, if_pos h]
      exact (ih seen).cons a
    · simp only [hashDedup, if_neg h]
      exact (ih _).cons₂ a

theorem mem_hashDedup_not_seen (seen : List String) (l : List Article) :
    ∀ a ∈ hashDedup seen l, a.content_hash ∉ seen := by
  induction l generalizing seen with
  | nil => simp [hashDedup]
  | cons a rest ih =>
    by_cases h : a.content_hash ∈ seen
    · simpa only [hashDedup, if_pos h] using ih seen
    · simp only [hashDedup, if_neg h]
      intro x hx
      rw [List.mem_cons] at hx
      rcases hx with hx | hx
      · subst hx; exact h
      · intro hmem
        exact (ih _ x hx) (List.mem_cons_of_mem _ hmem)

theorem hashDedup_countP_seen (seen : List String) (l : List Article)
    (h : String) (hseen : h ∈ seen) :
    (hashDedup seen l).countP (fun a => a.content_hash == h) = 0 := by
  rw [List.countP_eq_zero]
  intro a ha
  have := mem_hashDedup_not_seen seen l a ha
  simp only [beq_iff_eq]
  intro heq
  exact this (heq ▸ hseen)

theorem hashDedup_countP (l : List Article) (seen : List String) (h : String)
    (hns : h ∉ seen) :
    (hashDedup seen l).countP (fun a => a.content_hash == h) =
      if l.any (fun a => a.content_hash == h) then 1 else 0 := by
  induction l generalizing seen with
  | nil => simp [hashDedup]
  | cons a rest ih =>
    by_cases hm : a.content_hash ∈ seen
    · have hne : ¬(a.content_hash == h) = true := by
        simp only [beq_iff_eq]
        intro heq
        exact hns (heq ▸ hm)
      simp only [hashDedup, if_pos hm, List.any_cons]
      rw [ih seen hns]
      simp [hne]
    · simp only [hashDedup, if_neg hm, List.countP_cons, List.any_cons]
      by_cases heq : a.content_hash = h
      · subst heq
        rw [hashDedup_countP_seen _ _ _ (List.mem_cons_self _ _)]
        simp
      · have hns' : h ∉ a.content_hash :: seen := by
          intro hc
          rw [List.mem_cons] at hc
          rcases hc with hc | hc
          · exact heq hc.symm
          · exact hns hc
        rw [ih _ hns']
        simp [heq]

theorem hashDedup_find? (l : List Article) (seen : List String) (h : String)
    (hns : h ∉ seen) :
    (hashDedup seen l).find? (fun a => a.content_hash == h) =
      l.find? (fun a => a.content_hash == h) := by
  induction l generalizing seen with
  | nil => simp [hashDedup]
  | cons a rest ih =>
    by_cases hm : a.content_hash ∈ seen
    · have hne : (a.content_hash == h) = false := by
        simp only [beq_eq_false_iff_ne, ne_eq]
        intro heq
        exact hns (heq ▸ hm)
      simp only [hashDedup, if_pos hm, List.find?_cons, hne]
      exact ih seen hns
    · simp only [hashDedup, if_neg hm, List.find?_cons]
      by_cases heq : (a.content_hash == h) = true
      · simp [heq]
      · have hns' : h ∉ a.content_hash :: seen := by
          intro hc
          rw [List.mem_cons] at hc
          rcases hc with hc | hc
          · exact heq (by simp [hc])
          · exact hns hc
        simp only [Bool.not_eq_true] at heq
        simp only [heq]
        exact ih _ hns'

theorem countP_congr' {α : Type} (l : List α) (p q : α → Bool)
    (hpq : ∀ x ∈ l, p x = q x) : l.countP p = l.countP q := by
  induction l with
  | nil => rfl
  | cons a rest ih =>
    simp only [List.countP_cons]
    rw [hpq a (List.mem_cons_self _ _), ih (fun x hx => hpq x (List.mem_cons_of_mem _ hx))]

theorem find?_congr' {α : Type} (l : List α) (p q : α → Bool)
    (hpq : ∀ x ∈ l, p x = q x) : l.find? p = l.find? q := by
  induction l with
  | nil => rfl
  | cons a rest ih =>
    simp only [List.find?_cons]
    rw [hpq a (List.mem_cons_self _ _)]
    by_cases hq : q a = true
    · simp [hq]
    · simp only [Bool.not_eq_true] at hq
      simp only [hq]
      exact ih (fun x hx => hpq x (List.mem_cons_of_mem _ hx))

/-- C1: For every input batch, phase-1 exact dedup of
`DedupProcessor.process` is an order-preserving sublist of the input
that retains, among all records sharing a content fingerprint, exactly
one record, namely the first encountered in input order. -/
theorem exact_dedup_first_seen_wins (articles : List Article) :
    (hashDedup [] articles).Sublist articles
    ∧ ∀ a ∈ articles,
        (hashDedup [] articles).countP
            (fun x => x.content_hash == a.content_hash) = 1
        ∧ (hashDedup [] articles).find?
            (fun x => x.content_hash == a.content_hash) =
          articles.find? (fun x => x.content_hash == a.content_hash) := by
  refine ⟨hashDedup_sublist [] articles, ?_⟩
  intro a ha
  constructor
  · rw [hashDedup_countP articles [] a.content_hash (List.not_mem_nil _)]
    have : articles.any (fun x => x.content_hash == a.content_hash) = true :=
      List.any_eq_true.mpr ⟨a, ha, by simp⟩
    simp [this]
  · exact hashDedup_find? articles [] a.content_hash (List.not_mem_nil _)

/-- Witness for `exact_dedup_first_seen_wins` at a concrete batch with a
duplicated fingerprint. -/
theorem exact_dedup_first_seen_wins_witness :
    let a1 : Article :=
      { url := "u1", title := "t1", content := "c1", source_name := "s",
        source_type := "rss", topic := "tech", content_hash := "h1" }
    let a2 : Article :=
      { url := "u2", title := "t2", content := "c2", source_name := "s",
        source_type := "rss", topic := "tech", content_hash := "h2" }
    let a3 : Article :=
      { url := "u3", title := "t3", content := "c1dup", source_name := "s",
        source_type := "rss", topic := "tech", content_hash := "h1" }
    (hashDedup [] [a1, a2, a3]).countP
        (fun x => x.content_hash == a3.content_hash) = 1
    ∧ (hashDedup [] [a1, a2, a3]).find?
        (fun x => x.content_hash == a3.content_hash) =
      [a1, a2, a3].find? (fun x => x.content_hash == a3.content_hash) := by
  intro a1 a2 a3
  exact (exact_dedup_first_seen_wins [a1, a2, a3]).2 a3 (by simp)

/-- C10: `Article.__post_init__` computes a fingerprint only for
non-empty bodies; an `Article` constructed with empty content keeps the
empty fingerprint, so among articles constructed that way exact dedup
keeps at most one empty-content record — the first one — regardless of
its other fields.  The hypotheses record what construction through
`postInit` (with the 64-hex-character SHA-256 digest) guarantees: empty
content leaves the hash `""`, non-empty content never does. -/
theorem empty_content_fingerprint_dedup (f : String → String) (a : Article)
    (batch : List Article)
    (hempty : ∀ x ∈ batch, x.content = "" → x.content_hash = "")
    (hfull : ∀ x ∈ batch, x.content ≠ "" → x.content_hash ≠ "") :
    (a.content = "" → postInit f a = a)
    ∧ (a.content_hash = "" → a.content ≠ "" →
        (postInit f a).content_hash = (f a.content).take 16)
    ∧ (hashDedup [] batch).countP (fun x => x.content == "") ≤ 1
    ∧ (hashDedup [] batch).find? (fun x => x.content == "") =
        batch.find? (fun x => x.content == "") := by
  have hagree : ∀ x ∈ batch, (x.content == "") = (x.content_hash == "") := by
    intro x hx
    by_cases hc : x.content = ""
    · simp [hc, hempty x hx hc]
    · simp [hc, hfull x hx hc]
  refine ⟨?_, ?_, ?_, ?_⟩
  · intro hc
    simp [postInit, hc]
  · intro hh hc
    simp [postInit, hh, hc]
  · have hsub := (hashDedup_sublist [] batch).subset
    rw [countP_congr' _ _ _ (fun x hx => hagree x (hsub hx))]
    rw [hashDedup_countP batch [] "" (List.not_mem_nil _)]
    split <;> simp
  · rw [find?_congr' _ _ _ (fun x hx =>
      hagree x ((hashDedup_sublist [] batch).subset hx))]
    rw [hashDedup_find? batch [] "" (List.not_mem_nil _)]
    exact find?_congr' _ _ _ (fun x hx => (hagree x hx).symm)

/-- Witness for `empty_content_fingerprint_dedup`: two empty-content
articles with different URLs; only the first survives. -/
theorem empty_content_fingerprint_dedup_witness :
    let e1 : Article :=
      { url := "u1", title := "t1", content := "", source_name := "s",
        source_type := "rss", topic := "tech" }
    let e2 : Article :=
      { url := "u2", title := "other title", content := "", source_name := "s",
        source_type := "rss", topic := "tech" }
    let b1 : Article :=
      { url := "u3", title := "t3", content := "body", source_name := "s",
        source_type := "rss", topic := "tech", content_hash := "aa11" }
    (hashDedup [] [e1, b1, e2]).countP (fun x => x.content == "") ≤ 1
    ∧ (hashDedup [] [e1, b1, e2]).find? (fun x => x.content == "") =
        [e1, b1, e2].find? (fun x => x.content == "") := by
  intro e1 b1 e2
  have h := empty_content_fingerprint_dedup (fun _ => "") e1 [e1, b1, e2]
    (by intro x hx hc; fin_cases hx <;> simp_all)
    (by intro x hx hc; fin_cases hx <;> simp_all)
  exact ⟨h.2.2.1, h.2.2.2⟩

/-! ## Helper lemmas: near-duplicate pass -/

/-- The keep array after the first `m` outer iterations. -/
def foldSweeps (sim : Nat → Nat → ℚ) (θ : ℚ) (n m : Nat) : Nat → Bool :=
  (List.range m).foldl (sweep sim θ n) (fun _ => true)

theorem phase2Keep_eq_foldSweeps (sim : Nat → Nat → ℚ) (θ : ℚ) (n : Nat) :
    phase2Keep sim θ n = foldSweeps sim θ n n := rfl

theorem sweep_le (sim : Nat → Nat → ℚ) (θ : ℚ) (n : Nat) (keep : Nat → Bool)
    (i j : Nat) (h : j ≤ i) : sweep sim θ n keep i j = keep j := by
  unfold sweep
  split
  · simp only
    rw [if_neg]
    intro hc
    exact absurd hc.1 (Nat.not_lt.mpr h)
  · rfl

theorem foldSweeps_succ (sim : Nat → Nat → ℚ) (θ : ℚ) (n m : Nat) :
    foldSweeps sim θ n (m + 1) = sweep sim θ n (foldSweeps sim θ n m) m := by
  unfold foldSweeps
  rw [List.range_succ, List.foldl_append]
  rfl

theorem foldSweeps_stable (sim : Nat → Nat → ℚ) (θ : ℚ) (n : Nat) :
    ∀ m m' j, m ≤ m' → j ≤ m → foldSweeps sim θ n m' j = foldSweeps sim θ n m j := by
  intro m m' j hmm hjm
  induction m', hmm using Nat.le_induction with
  | base => rfl
  | succ k hk ih =>
    rw [foldSweeps_succ, sweep_le _ _ _ _ _ _ (le_trans hjm hk), ih]

theorem foldSweeps_iff (sim : Nat → Nat → ℚ) (θ : ℚ) (n : Nat) :
    ∀ m j, j < n →
      (foldSweeps sim θ n m j = true ↔
        ∀ i, i < m → i < j → foldSweeps sim θ n m i = true → sim i j < θ) := by
  intro m
  induction m with
  | zero =>
    intro j _
    simp [foldSweeps]
  | succ m ih =>
    intro j hj
    have hstab : ∀ i, i ≤ m →
        foldSweeps sim θ n (m + 1) i = foldSweeps sim θ n m i :=
      fun i hi => foldSweeps_stable sim θ n m (m + 1) i (Nat.le_succ m) hi
    by_cases hkm : foldSweeps sim θ n m m = true
    · -- record m is still kept when its outer iteration runs
      by_cases hmj : m < j
      · -- j lies in the range the m-th sweep touches
        have hval : foldSweeps sim θ n (m + 1) j =
            (foldSweeps sim θ n m j && decide (sim m j < θ)) := by
          rw [foldSweeps_succ]
          unfold sweep
          rw [if_pos hkm, if_pos ⟨hmj, hj⟩]
        constructor
        · intro hkj i him hij hki
          rw [hval, Bool.and_eq_true, decide_eq_true_iff] at hkj
          rcases Nat.lt_succ_iff_lt_or_eq.mp him with hlt | heqm
          · exact (ih j hj).mp hkj.1 i hlt hij
              (by rw [← hstab i (Nat.le_of_lt hlt)]; exact hki)
          · exact heqm ▸ hkj.2
        · intro hall
          rw [hval, Bool.and_eq_true, decide_eq_true_iff]
          refine ⟨(ih j hj).mpr ?_, ?_⟩
          · intro i hlt hij hki
            exact hall i (Nat.lt_succ_of_lt hlt) hij
              (by rw [hstab i (Nat.le_of_lt hlt)]; exact hki)
          · exact hall m (Nat.lt_succ_self m) hmj
              (by rw [hstab m (le_refl m)]; exact hkm)
      · -- j ≤ m: this sweep leaves j untouched and every relevant i is < m
        have hjm : j ≤ m := Nat.not_lt.mp hmj
        have hkeep : foldSweeps sim θ n (m + 1) j = foldSweeps sim θ n m j := by
          rw [foldSweeps_succ]
          exact sweep_le sim θ n _ m j hjm
        rw [hkeep]
        rw [ih j hj]
        constructor
        · intro hall i him hij hki
          have hltm : i < m := Nat.lt_of_lt_of_le hij hjm
          exact hall i hltm hij
            (by rw [← hstab i (Nat.le_of_lt hltm)]; exact hki)
        · intro hall i hltm hij hki
          exact hall i (Nat.lt_succ_of_lt hltm) hij
            (by rw [hstab i (Nat.le_of_lt hltm)]; exact hki)
    · -- record m was already dropped: the whole sweep is skipped
      have hkeep : foldSweeps sim θ n (m + 1) = foldSweeps sim θ n m := by
        rw [foldSweeps_succ]
        unfold sweep
        rw [if_neg hkm]
      rw [hkeep, ih j hj]
      constructor
      · intro hall i him hij hki
        rcases Nat.lt_succ_iff_lt_or_eq.mp him with hlt | heqm
        · exact hall i hlt hij hki
        · exact absurd hki (heqm ▸ hkm)
      · intro hall i hltm hij hki
        exact hall i (Nat.lt_succ_of_lt hltm) hij hki

/-- The drop logic of the phase-2 double loop: a record survives iff
every earlier *surviving* record is below the threshold with it. -/
theorem phase2Keep_iff (sim : Nat → Nat → ℚ) (θ : ℚ) (n j : Nat) (hj : j < n) :
    phase2Keep sim θ n j = true ↔
      ∀ i, i < j → phase2Keep sim θ n i = true → sim i j < θ := by
  rw [phase2Keep_eq_foldSweeps, foldSweeps_iff sim θ n n j hj]
  constructor
  · intro h i hij hki
    exact h i (lt_trans hij hj) hij hki
  · intro h i _ hij hki
    exact h i hij hki

/-- C2 (amended): after the near-duplicate pass, any two survivors are
strictly below the threshold, so of any ≥-threshold pair at most one
remains; if the earlier-indexed member of such a pair survives the pass
the later one is dropped (but the surviving member need not be the
earlier-indexed one, see `near_dedup_later_survivor_cx`); and the pass
preserves relative order. -/
theorem near_dedup_no_similar_survivors (l : List Article)
    (sim : Nat → Nat → ℚ) (θ : ℚ) (i j : Nat)
    (hij : i < j) (hj : j < l.length) :
    (simDedup sim θ l).Sublist l
    ∧ (phase2Keep sim θ l.length i = true → phase2Keep sim θ l.length j = true →
        sim i j < θ)
    ∧ (θ ≤ sim i j →
        ¬(phase2Keep sim θ l.length i = true ∧ phase2Keep sim θ l.length j = true))
    ∧ (θ ≤ sim i j → phase2Keep sim θ l.length i = true →
        phase2Keep sim θ l.length j = false) := by
  have hpair : phase2Keep sim θ l.length i = true →
      phase2Keep sim θ l.length j = true → sim i j < θ := by
    intro hki hkj
    exact (phase2Keep_iff sim θ l.length j hj).mp hkj i hij hki
  refine ⟨?_, hpair, ?_, ?_⟩
  · have hsub := (List.filter_sublist
      (p := fun p => phase2Keep sim θ l.length p.1) l.enum).map Prod.snd
    rw [List.enum_map_snd] at hsub
    exact hsub
  · rintro hθ ⟨hki, hkj⟩
    exact absurd (hpair hki hkj) (not_lt.mpr hθ)
  · intro hθ hki
    cases hkj : phase2Keep sim θ l.length j with
    | false => rfl
    | true => exact absurd (hpair hki hkj) (not_lt.mpr hθ)

/-- Witness for `near_dedup_no_similar_survivors` at a concrete
two-record batch with similarity above the default threshold: the later
record is dropped. -/
theorem near_dedup_no_similar_survivors_witness :
    phase2Keep (fun _ _ => mkRat 9 10) (mkRat 85 100) 2 1 = false :=
  (near_dedup_no_similar_survivors
    [{ url := "w1", title := "t", content := "c1", source_name := "s",
       source_type := "rss", topic := "tech", content_hash := "k1" },
     { url := "w2", title := "t", content := "c2", source_name := "s",
       source_type := "rss", topic := "tech", content_hash := "k2" }]
    (fun _ _ => mkRat 9 10) (mkRat 85 100) 0 1
    (by decide) (by decide)).2.2.2 (by decide) (by decide)

/-- The three concrete records of the near-duplicate counterexamples. -/
def cxA0 : Article :=
  { url := "u0", title := "t0", content := "c0", source_name := "s",
    source_type := "rss", topic := "tech", content_hash := "h0" }

def cxA1 : Article :=
  { url := "u1", title := "t1", content := "c1", source_name := "s",
    source_type := "rss", topic := "tech", content_hash := "h1" }

def cxA2 : Article :=
  { url := "u2", title := "t2", content := "c2", source_name := "s",
    source_type := "rss", topic := "tech", content_hash := "h2" }

/-- Unit vectors at rational points of the circle: the pairwise cosine
similarities of `[1,0]`, `[12/13, 5/13]`, `[119/169, 120/169]` are
exactly the plain dot products recorded in `cxSim`. -/
def cxEmbs : Nat → List ℚ := fun i =>
  if i = 0 then [1, 0]
  else if i = 1 then [mkRat 12 13, mkRat 5 13]
  else [mkRat 119 169, mkRat 120 169]

def cxSim : Nat → Nat → ℚ := fun i j =>
  if (i = 0 ∧ j = 1) ∨ (i = 1 ∧ j = 0) then mkRat 12 13
  else if (i = 1 ∧ j = 2) ∨ (i = 2 ∧ j = 1) then mkRat 12 13
  else if (i = 0 ∧ j = 2) ∨ (i = 2 ∧ j = 0) then mkRat 119 169
  else 1

/-- C2 counterexample: records 1 and 2 are a ≥-threshold pair of phase-1
survivors, yet the member of the pair that remains after
`DedupProcessor.process` is the *later*-indexed record 2 — record 1 was
dropped by record 0 (`sim 0 1 = 12/13 ≥ 0.85`), and the pair `(1, 2)` is
then skipped while `sim 0 2 = 119/169 < 0.85` lets record 2 survive. -/
theorem near_dedup_later_survivor_cx :
    (85 : ℚ)/100 ≤ cxSim 1 2
    ∧ dedupProcess {} cxEmbs cxSim [cxA0, cxA1, cxA2] =
        [{ cxA0 with embedding := [1, 0] },
         { cxA2 with embedding := [mkRat 119 169, mkRat 120 169] }] := by
  constructor
  · simp only [cxSim]
    norm_num [Rat.mkRat_eq_divInt, Rat.divInt_eq_div]
  · decide

/-- C3 (amended): in the near-duplicate pass a record `j` is dropped iff
some earlier record that itself *survives* has similarity ≥ the
threshold with it — pairs whose earlier member was already dropped are
skipped; and when dedup is enabled and at least two records survive
phase 1, `DedupProcessor.process` is exactly this pass over the phase-1
survivors carrying their fresh embeddings. -/
theorem near_dedup_drop_characterization (sim : Nat → Nat → ℚ) (θ : ℚ)
    (n j : Nat) (hj : j < n) (cfg : DedupCfg) (embs : Nat → List ℚ)
    (articles : List Article) (hen : cfg.enabled = true)
    (h2 : 2 ≤ (hashDedup [] articles).length) :
    (phase2Keep sim θ n j = true ↔
      ∀ i, i < j → phase2Keep sim θ n i = true → sim i j < θ)
    ∧ dedupProcess cfg embs sim articles =
        simDedup sim cfg.cosine_threshold (withEmbeddings embs (hashDedup [] articles)) := by
  refine ⟨phase2Keep_iff sim θ n j hj, ?_⟩
  unfold dedupProcess
  rw [hen]
  simp only [Bool.not_true, Bool.false_eq_true, if_false]
  rw [if_neg (by omega)]

/-- Witness for `near_dedup_drop_characterization` at the concrete
counterexample batch. -/
theorem near_dedup_drop_characterization_witness :
    (phase2Keep cxSim (mkRat 85 100) 3 2 = true ↔
      ∀ i, i < 2 → phase2Keep cxSim (mkRat 85 100) 3 i = true → cxSim i 2 < mkRat 85 100)
    ∧ dedupProcess {} cxEmbs cxSim [cxA0, cxA1, cxA2] =
        simDedup cxSim (mkRat 85 100)
          (withEmbeddings cxEmbs (hashDedup [] [cxA0, cxA1, cxA2])) :=
  near_dedup_drop_characterization cxSim (mkRat 85 100) 3 2 (by decide) {} cxEmbs
    [cxA0, cxA1, cxA2] (by decide) (by decide)

/-- Modelled from the claim wording of C3: drop `j` whenever *any*
earlier-indexed record — dropped or not — is ≥-threshold similar to it. -/
def claimNearKeep (sim : Nat → Nat → ℚ) (θ : ℚ) (j : Nat) : Bool :=
  (List.range j).all fun i => decide (sim i j < θ)

def claimSimDedup (sim : Nat → Nat → ℚ) (θ : ℚ) (l : List Article) : List Article :=
  (l.enum.filter fun p => claimNearKeep sim θ p.1).map Prod.snd

/-- C3 counterexample: at the concrete batch, the rule "drop `j`
whenever any earlier-indexed `i` is ≥-threshold similar, whether or not
`i` was dropped" would also drop record 2 (because `sim 1 2 ≥ 0.85`),
but the code keeps record 2 since record 1 was already dropped and the
pair `(1, 2)` is skipped. -/
theorem near_dedup_skips_dropped_pairs_cx :
    (85 : ℚ)/100 ≤ cxSim 1 2
    ∧ claimSimDedup cxSim (mkRat 85 100) (withEmbeddings cxEmbs [cxA0, cxA1, cxA2]) =
        [{ cxA0 with embedding := [1, 0] }]
    ∧ dedupProcess {} cxEmbs cxSim [cxA0, cxA1, cxA2] =
        [{ cxA0 with embedding := [1, 0] },
         { cxA2 with embedding := [mkRat 119 169, mkRat 120 169] }] := by
  refine ⟨by simp only [cxSim]; norm_num [Rat.mkRat_eq_divInt, Rat.divInt_eq_div],
    by decide, by decide⟩

/-! ## Helper lemmas: clustering -/

theorem addToGroup_prop (Q : Article → Prop) (k : Int) (a : Article) :
    ∀ m, (∀ p ∈ m, ∀ x ∈ p.2, Q x) → Q a →
      ∀ p ∈ addToGroup m k a, ∀ x ∈ p.2, Q x := by
  intro m
  induction m with
  | nil =>
    intro _ hQa p hp x hx
    simp only [addToGroup, List.mem_singleton] at hp
    subst hp
    simp only [List.mem_singleton] at hx
    subst hx
    exact hQa
  | cons q rest ih =>
    intro hm hQa p hp x hx
    unfold addToGroup at hp
    by_cases hk : q.1 = k
    · rw [if_pos hk] at hp
      rw [List.mem_cons] at hp
      rcases hp with hp | hp
      · subst hp
        simp only [List.mem_append, List.mem_singleton] at hx
        rcases hx with hx | hx
        · exact hm q (List.mem_cons_self _ _) x hx
        · subst hx; exact hQa
      · exact hm p (List.mem_cons_of_mem _ hp) x hx
    · rw [if_neg hk] at hp
      rw [List.mem_cons] at hp
      rcases hp with hp | hp
      · subst hp
        exact hm q (List.mem_cons_self _ _) x hx
      · exact ih (fun r hr => hm r (List.mem_cons_of_mem _ hr)) hQa p hp x hx

theorem groupByClusterId_prop (Q : Article → Prop) (articles : List Article) :
    (∀ a ∈ articles, Q a) →
      ∀ p ∈ groupByClusterId articles, ∀ x ∈ p.2, Q x := by
  have main : ∀ (l : List Article) (m : List (Int × List Article)),
      (∀ p ∈ m, ∀ x ∈ p.2, Q x) → (∀ a ∈ l, Q a) →
      ∀ p ∈ l.foldl (fun m a =>
          match a.cluster_id with
          | some k => addToGroup m k a
          | none => m) m, ∀ x ∈ p.2, Q x := by
    intro l
    induction l with
    | nil => intro m hm _; exact hm
    | cons a rest ih =>
      intro m hm hl
      simp only [List.foldl_cons]
      have hQa : Q a := hl a (List.mem_cons_self _ _)
      have hrest : ∀ x ∈ rest, Q x := fun x hx => hl x (List.mem_cons_of_mem _ hx)
      cases hc : a.cluster_id with
      | none => simpa [hc] using ih m hm hrest
      | some k =>
        simp only [hc]
        exact ih _ (addToGroup_prop Q k a m hm hQa) hrest
  intro h
  exact main articles [] (by simp) h

/-- C7 (amended): `build_clusters` tags every produced cluster with the
topic it was *called* with and an `article_count` equal to its member
list length; its members all carry that topic provided the input batch
was topic-homogeneous — which is exactly what the Run Coordinator
arranges by filtering per topic before calling, so every cluster the
coordinator forms (`buildAllClusters`) is unconditionally topic-pure.
`build_clusters` alone does not filter, see
`build_clusters_cross_topic_cx`. -/
theorem cluster_topic_purity (articles : List Article) (topic : String)
    (run_id : Int) (topics : List String) (batch : List Article) (rid : Int) :
    (∀ c ∈ buildClusters articles topic run_id,
        c.topic = topic ∧ c.article_count = c.articles.length
        ∧ ((∀ a ∈ articles, a.topic = topic) → ∀ x ∈ c.articles, x.topic = c.topic))
    ∧ (∀ c ∈ buildAllClusters topics batch rid,
        c.article_count = c.articles.length ∧ ∀ x ∈ c.articles, x.topic = c.topic) := by
  have base : ∀ (arts : List Article) (t : String) (r : Int),
      ∀ c ∈ buildClusters arts t r,
        c.topic = t ∧ c.article_count = c.articles.length
        ∧ ((∀ a ∈ arts, a.topic = t) → ∀ x ∈ c.articles, x.topic = c.topic) := by
    intro arts t r c hc
    unfold buildClusters at hc
    rw [List.mem_map] at hc
    obtain ⟨p, hp, hpc⟩ := hc
    subst hpc
    refine ⟨rfl, rfl, ?_⟩
    intro hall x hx
    exact groupByClusterId_prop (fun a => a.topic = t) arts hall p hp x hx
  refine ⟨base articles topic run_id, ?_⟩
  intro c hc
  unfold buildAllClusters at hc
  rw [List.mem_flatten] at hc
  obtain ⟨l, hl, hcl⟩ := hc
  rw [List.mem_map] at hl
  obtain ⟨t, ht, hlt⟩ := hl
  subst hlt
  by_cases he : (batch.filter fun a => a.topic == t).isEmpty
  · rw [if_pos he] at hcl
    exact absurd hcl (List.not_mem_nil c)
  · rw [if_neg he] at hcl
    have hfiltered : ∀ a ∈ batch.filter (fun a => a.topic == t), a.topic = t := by
      intro a ha
      have := (List.mem_filter.mp ha).2
      simpa using this
    have h := base _ t rid c hcl
    exact ⟨h.2.1, h.2.2 hfiltered⟩

/-- Witness for `cluster_topic_purity`: a one-article batch grouped by
the coordinator loop yields a topic-pure cluster. -/
theorem cluster_topic_purity_witness :
    let wArt : Article :=
      { url := "u", title := "t", content := "c", source_name := "s",
        source_type := "rss", topic := "tech", cluster_id := some 1 }
    wArt.topic =
      (({ topic := "tech", label := "Cluster 1", article_count := 1, run_id := 1,
          articles := [wArt], id := none } : Cluster)).topic := by
  intro wArt
  exact (cluster_topic_purity [] "" 0 ["tech"] [wArt] 1).2
    { topic := "tech", label := "Cluster 1", article_count := 1, run_id := 1,
      articles := [wArt], id := none }
    (by decide) |>.2 wArt (by decide)

/-- C7 counterexample: called on a batch whose article carries a
different topic, `build_clusters` still groups it under the given topic
label — the function itself enforces no topic purity. -/
theorem build_clusters_cross_topic_cx :
    buildClusters
        [{ url := "u", title := "t", content := "c", source_name := "s",
           source_type := "rss", topic := "tech", cluster_id := some 1 }]
        "finance" 1 =
      [{ topic := "finance", label := "Cluster 1", article_count := 1, run_id := 1,
         articles := [{ url := "u", title := "t", content := "c", source_name := "s",
                        source_type := "rss", topic := "tech", cluster_id := some 1 }],
         id := none }]
    ∧ ({ url := "u", title := "t", content := "c", source_name := "s",
         source_type := "rss", topic := "tech",
         cluster_id := some 1 } : Article).topic ≠ "finance" := by
  exact ⟨by decide, by decide⟩

/-! ## Helper lemmas: summary backfill -/

theorem find?_append_left_none {α : Type} (p : α → Bool) :
    ∀ (pre l : List α), (∀ x ∈ pre, p x = false) →
      List.find? p (pre ++ l) = List.find? p l := by
  intro pre
  induction pre with
  | nil => intro l _; rfl
  | cons a rest ih =>
    intro l hall
    rw [List.cons_append, List.find?_cons, hall a (List.mem_cons_self _ _)]
    exact ih l (fun x hx => hall x (List.mem_cons_of_mem _ hx))

/-- C9: after summarization the coordinator persists the summaries in
order; a summary whose owning-cluster id is unset (`cluster_id == 0`)
is assigned the id of the first cluster that has members while the
summary id is still unset (so exactly one assignment per summary);
summaries with a set id — and summaries with no member-carrying cluster
to scan to — are persisted unchanged. -/
theorem summary_backfill_first_nonempty_cluster (summaries : List Summary)
    (clusters : List Cluster) :
    (backfillSummaries summaries clusters).length = summaries.length
    ∧ (∀ i s, summaries.get? i = some s → s.cluster_id ≠ some 0 →
        (backfillSummaries summaries clusters).get? i = some s)
    ∧ (∀ i s, summaries.get? i = some s → s.cluster_id = some 0 →
        ((∀ c ∈ clusters, c.articles = []) →
          (backfillSummaries summaries clusters).get? i = some s)
        ∧ (∀ pre c post, clusters = pre ++ c :: post →
            (∀ c' ∈ pre, c'.articles = []) → c.articles ≠ [] →
            (backfillSummaries summaries clusters).get? i =
              some { s with cluster_id := c.id })) := by
  refine ⟨List.length_map _ _, ?_, ?_⟩
  · intro i s hs hne
    unfold backfillSummaries
    rw [List.get?_map, hs]
    simp [if_neg hne]
  · intro i s hs h0
    constructor
    · intro hall
      unfold backfillSummaries
      rw [List.get?_map, hs]
      have hfind : clusters.find? (fun c => !c.articles.isEmpty) = none := by
        rw [List.find?_eq_none]
        intro c hc
        simp [hall c hc]
      simp [if_pos h0, hfind]
    · intro pre c post hdecomp hpre hne
      unfold backfillSummaries
      rw [List.get?_map, hs]
      have hfind : clusters.find? (fun c => !c.articles.isEmpty) = some c := by
        rw [hdecomp, find?_append_left_none _ pre _
          (fun x hx => by simp [hpre x hx])]
        rw [List.find?_cons]
        have hce : (!c.articles.isEmpty) = true := by simp [hne]
        simp [hce]
      simp [if_pos h0, hfind]

/-- Witness for `summary_backfill_first_nonempty_cluster`: a zero-id
summary is linked to the first member-carrying cluster (skipping an
empty one), and persisted at its position. -/
theorem summary_backfill_first_nonempty_cluster_witness :
    let s0 : Summary :=
      { cluster_id := some 0, depth := "briefing", what_happened := .str "w",
        why_it_matters := .str "y", whats_next := .str "n",
        confidence := .str "developing", sources := .arr [] }
    let cEmpty : Cluster :=
      { topic := "tech", label := "Cluster 1", article_count := 0, run_id := 1,
        articles := [], id := some 3 }
    let cFull : Cluster :=
      { topic := "tech", label := "Cluster 2", article_count := 1, run_id := 1,
        articles := [{ url := "u", title := "t", content := "c", source_name := "s",
                       source_type := "rss", topic := "tech" }], id := some 7 }
    (backfillSummaries [s0] [cEmpty, cFull]).get? 0 =
      some { s0 with cluster_id := some 7 } := by
  intro s0 cEmpty cFull
  exact ((summary_backfill_first_nonempty_cluster [s0] [cEmpty, cFull]).2.2 0 s0
    rfl rfl).2 [cEmpty] cFull [] rfl
    (by intro c' hc'; simp only [List.mem_singleton] at hc'; subst hc'; rfl)
    (by simp)

/-! ## C4: extraction precedence and the degraded summary -/

/-- C4 (amended): `_extract_json` tries, in order and stopping at the
first success: the raw parse, the quote-normalized parse (both inside
`_try_parse`), the first fenced code block (both parses), and the span
from the first opening brace to the *last* closing brace (both parses) —
not the first balanced brace span, see `brace_span_not_balanced_cx`.
When every attempt fails, `summarize_cluster` returns (without raising)
a degraded Summary whose confidence is exactly `"developing"` and whose
`what_happened` is the at-most-500-character prefix of the raw
response. -/
theorem extraction_order_and_degraded_summary (raw : String) (cluster : Cluster) :
    extractJson raw =
      ((tryParse raw).orElse fun _ =>
        (((fenceSearch raw.data).bind tryParse).orElse fun _ =>
          (braceSpan raw).bind tryParse))
    ∧ tryParse raw = ((jsonLoads raw).orElse fun _ => jsonLoads (normalizeQuotes raw))
    ∧ (extractJson raw = none →
        ∃ s c', summarizeCluster cluster raw = .ok (s, c')
          ∧ s.confidence = .str "developing"
          ∧ s.what_happened = .str (raw.take 500)
          ∧ (raw.take 500).data.length ≤ 500
          ∧ raw.data = (raw.take 500).data ++ raw.data.drop 500) := by
  refine ⟨?_, ?_, ?_⟩
  · unfold extractJson
    cases htp : tryParse raw with
    | some v => simp [Option.orElse]
    | none =>
      cases hfs : fenceSearch raw.data with
      | none =>
        cases hbs : braceSpan raw with
        | none => simp [Option.orElse]
        | some g => simp [Option.orElse]
      | some g =>
        cases htg : tryParse g with
        | some v => simp [Option.orElse, htg]
        | none =>
          cases hbs : braceSpan raw with
          | none => simp [Option.orElse, htg]
          | some g2 => simp [Option.orElse, htg]
  · unfold tryParse
    cases hjl : jsonLoads raw with
    | some v => simp [Option.orElse]
    | none => simp [Option.orElse]
  · intro hnone
    have hlen : (raw.take 500).data.length ≤ 500 := by
      rw [String.data_take, List.length_take]
      exact min_le_left _ _
    have hdata : raw.data = (raw.take 500).data ++ raw.data.drop 500 := by
      rw [String.data_take]
      exact (List.take_append_drop 500 raw.data).symm
    match hart : cluster.articles with
    | [a] =>
      have hval : summarizeCluster cluster raw = summarizeSingle cluster a raw := by
        unfold summarizeCluster
        rw [hart]
      rw [hval]
      unfold summarizeSingle
      rw [hnone]
      exact ⟨_, _, rfl, rfl, rfl, hlen, hdata⟩
    | [] =>
      have hval : summarizeCluster cluster raw = summarizeMulti cluster raw := by
        unfold summarizeCluster
        rw [hart]
      rw [hval]
      unfold summarizeMulti
      rw [hnone]
      exact ⟨_, _, rfl, rfl, rfl, hlen, hdata⟩
    | a :: b :: rest =>
      have hval : summarizeCluster cluster raw = summarizeMulti cluster raw := by
        unfold summarizeCluster
        rw [hart]
      rw [hval]
      unfold summarizeMulti
      rw [hnone]
      exact ⟨_, _, rfl, rfl, rfl, hlen, hdata⟩

/-- Witness for `extraction_order_and_degraded_summary` at a raw
response that defeats every extraction strategy. -/
theorem extraction_order_and_degraded_summary_witness :
    extractJson "the model refused to answer" = none
    ∧ ∃ s c', summarizeCluster
        { topic := "tech", label := "Cluster 1", article_count := 0, run_id := 1,
          articles := [], id := none } "the model refused to answer" = .ok (s, c')
      ∧ s.confidence = .str "developing"
      ∧ s.what_happened = .str (String.take "the model refused to answer" 500)
      ∧ (String.take "the model refused to answer" 500).data.length ≤ 500
      ∧ String.data "the model refused to answer" =
          (String.take "the model refused to answer" 500).data ++
            (String.data "the model refused to answer").drop 500 := by
  refine ⟨by rfl, ?_⟩
  exact (extraction_order_and_degraded_summary "the model refused to answer"
    { topic := "tech", label := "Cluster 1", article_count := 0, run_id := 1,
      articles := [], id := none }).2.2 (by rfl)

/-- Modelled from the claim wording of C4(d): "take the first balanced
brace-delimited span" — the substring from the first opening brace to
its matching closing brace, tracking nesting depth (quotation contexts
are irrelevant to the concrete input below). -/
def balancedFrom (depth : Nat) (acc : List Char) : List Char → Option (List Char)
  | [] => none
  | c :: cs =>
    if c = '\x7b' then balancedFrom (depth + 1) (c :: acc) cs
    else if c = '\x7d' then
      if depth = 1 then some (c :: acc).reverse
      else balancedFrom (depth - 1) (c :: acc) cs
    else balancedFrom depth (c :: acc) cs

def firstBalancedSpan (s : String) : Option String :=
  match s.data.dropWhile (fun c => c ≠ '\x7b') with
  | [] => none
  | cs => (balancedFrom 0 [] cs).map String.mk

/-- C4 counterexample: on `raw = "{\"a\": 1} }"` (braces written `\x7b`,
`\x7d`) the first *balanced* brace span is `{\"a\": 1}`, which parses, so
under the claim as stated extraction would succeed; but the code's
brace strategy takes the greedy span from the first `{` to the *last*
`}`, which does not parse, and `_extract_json` returns `None`. -/
theorem brace_span_not_balanced_cx :
    firstBalancedSpan "\x7b\"a\": 1\x7d \x7d" = some "\x7b\"a\": 1\x7d"
    ∧ tryParse "\x7b\"a\": 1\x7d" = some (Json.obj [("a", Json.num "1")])
    ∧ braceSpan "\x7b\"a\": 1\x7d \x7d" = some "\x7b\"a\": 1\x7d \x7d"
    ∧ extractJson "\x7b\"a\": 1\x7d \x7d" = none := by
  exact ⟨rfl, rfl, rfl, rfl⟩

/-! ## C5: per-cluster isolation and the fallback digest -/

/-- C5: `summarize_all_clusters` returns exactly the summaries of the
clusters whose summarization succeeded, in cluster order; a cluster
whose provider call or extraction raised contributes nothing; if every
cluster fails the result is `[]`; and whenever the coordinator reaches
report formatting, it formats the fallback raw-listing digest exactly
when the orchestrator returned no summaries. -/
theorem summarize_isolation_and_fallback
    (responses : Cluster → Except Unit String) (clusters : List Cluster) :
    summarizeAllClusters responses clusters =
      clusters.filterMap (safeSummarize responses)
    ∧ ((∀ c ∈ clusters, safeSummarize responses c = none) →
        summarizeAllClusters responses clusters = [])
    ∧ (∀ (env : PipelineEnv) (d : DigestKind),
        (runPipeline env).digest = some d →
        (d = DigestKind.fallback ↔
          summarizeAllClusters env.responses (runPipeline env).builtClusters = [])) := by
  have hmap : summarizeAllClusters responses clusters =
      clusters.filterMap (safeSummarize responses) := by
    unfold summarizeAllClusters
    rw [List.filterMap_map]
    rfl
  refine ⟨hmap, ?_, ?_⟩
  · intro hall
    rw [hmap]
    exact List.filterMap_eq_nil.mpr hall
  · intro env d
    unfold runPipeline
    by_cases hempty : (joinFetched env.fetchResults).isEmpty
    · simp [hempty]
    · simp only [hempty, if_false, Bool.false_eq_true]
      cases hded : env.dedupStage
          ((filterArticles env.now env.maxAgeHours env.maxPerTopic
            (joinFetched env.fetchResults)).enum.map
              fun p => { p.2 with id := some ((p.1 : Int) + 1) }) with
      | error e => simp [hded, failRun]
      | ok deduped =>
        cases hclu : env.clusterStage deduped with
        | error e => simp [hded, hclu, failRun]
        | ok clustered =>
          by_cases hfmt : env.formatRaises
          · simp [hded, hclu, hfmt, failRun]
          · simp only [hded, hclu, hfmt, if_false, Bool.false_eq_true]
            intro hd
            rw [Option.some_inj] at hd
            subst hd
            split
            · next hs => simp [List.isEmpty_iff.mp hs]
            · next hs =>
                constructor
                · intro hk
                  cases hk
                · intro hk
                  exact absurd (List.isEmpty_iff.mpr hk) hs

/-- A provider whose every call fails after retries. -/
def wRespFail : Cluster → Except Unit String := fun _ => .error ()

/-- The article of the witness environment. -/
def wArt : Article :=
  { url := "u", title := "t", content := "c", source_name := "s",
    source_type := "rss", topic := "tech", content_hash := "h" }

/-- A one-article environment whose provider always fails. -/
def wEnv : PipelineEnv :=
  { fetchResults := [.ok [wArt]]
    topics := ["tech"]
    dedupStage := fun l => .ok l
    clusterStage := fun l => .ok l
    responses := wRespFail }

/-- Witness for `summarize_isolation_and_fallback`: with every provider
call failing, the orchestrator returns `[]` and the run coordinator
formats the fallback digest. -/
theorem summarize_isolation_and_fallback_witness :
    summarizeAllClusters wRespFail (runPipeline wEnv).builtClusters = []
    ∧ (DigestKind.fallback = DigestKind.fallback ↔
        summarizeAllClusters wEnv.responses (runPipeline wEnv).builtClusters = []) := by
  refine ⟨?_, ?_⟩
  · exact (summarize_isolation_and_fallback wRespFail
      (runPipeline wEnv).builtClusters).2.1 (fun c _ => rfl)
  · exact (summarize_isolation_and_fallback wRespFail []).2.2 wEnv
      DigestKind.fallback (by rfl)

/-! ## C6: run finalization -/

/-- C6: on every exit path of `run_pipeline` the run is finalized
exactly once with its finish timestamp set and a terminal status —
`"completed"` on the success paths (including the zero-records early
exit) and `"failed"` exactly when an exception propagates — and on
every path the run's token/cost counters equal the cost-ledger totals
at finalization time (on the zero-records path the ledger is still
fresh, so the zero counters already coincide with it). -/
theorem run_finalized_exactly_once (env : PipelineEnv) :
    (runPipeline env).finishCount = 1
    ∧ (runPipeline env).run.finished_at = some env.now
    ∧ ((runPipeline env).run.status = "completed"
        ∨ (runPipeline env).run.status = "failed")
    ∧ ((runPipeline env).raised = true ↔ (runPipeline env).run.status = "failed")
    ∧ (runPipeline env).run.llm_tokens_used =
        (runPipeline env).ledger.total_input_tokens
          + (runPipeline env).ledger.total_output_tokens
    ∧ (runPipeline env).run.llm_cost_usd = (runPipeline env).ledger.total_cost_usd
    ∧ (joinFetched env.fetchResults = [] →
        (runPipeline env).run.status = "completed"
        ∧ (runPipeline env).run.articles_fetched = 0
        ∧ (runPipeline env).run.llm_tokens_used = 0) := by
  unfold runPipeline
  by_cases hempty : (joinFetched env.fetchResults).isEmpty
  · rw [List.isEmpty_iff] at hempty
    simp [hempty]
  · have hne : joinFetched env.fetchResults ≠ [] := by
      intro h
      exact hempty (by simp [h])
    simp only [hempty, if_false, Bool.false_eq_true]
    cases hded : env.dedupStage
        ((filterArticles env.now env.maxAgeHours env.maxPerTopic
          (joinFetched env.fetchResults)).enum.map
            fun p => { p.2 with id := some ((p.1 : Int) + 1) }) with
    | error e => simp [hded, failRun, hne]
    | ok deduped =>
      cases hclu : env.clusterStage deduped with
      | error e => simp [hded, hclu, failRun, hne]
      | ok clustered =>
        by_cases hfmt : env.formatRaises
        · simp [hded, hclu, hfmt, failRun, hne]
        · simp [hded, hclu, hfmt, hne]

/-- An environment whose only ingestion unit raises, so zero records
survive ingestion. -/
def wEnvZero : PipelineEnv :=
  { fetchResults := [.error ()]
    topics := ["tech"]
    dedupStage := fun l => .ok l
    clusterStage := fun l => .ok l
    responses := wRespFail }

/-- Witness for `run_finalized_exactly_once`: the zero-records early
exit completes the run with zero counters. -/
theorem run_finalized_exactly_once_witness :
    (runPipeline wEnvZero).finishCount = 1
    ∧ (runPipeline wEnvZero).run.status = "completed"
    ∧ (runPipeline wEnvZero).run.articles_fetched = 0
    ∧ (runPipeline wEnvZero).run.llm_tokens_used = 0 := by
  have h := run_finalized_exactly_once wEnvZero
  have hjoin : joinFetched wEnvZero.fetchResults = [] := rfl
  exact ⟨h.1, (h.2.2.2.2.2.2 hjoin).1, (h.2.2.2.2.2.2 hjoin).2.1,
    (h.2.2.2.2.2.2 hjoin).2.2⟩

/-! ## Helper lemmas: trend matching -/

theorem jaccard_nonneg (a b : Finset String) : 0 ≤ jaccard a b := by
  unfold jaccard
  positivity

theorem jaccard_of_empty {a b : Finset String} (h : a = ∅ ∨ b = ∅) :
    jaccard a b = 0 := by
  unfold jaccard
  rcases h with h | h
  · rw [h]
    simp
  · rw [h]
    simp

/-- Each loop iteration either leaves the running best unchanged or
installs the current pair with its score. -/
theorem bestStep_eq_or (c : Cluster) (w : Finset String)
    (st : ℚ × Option (Cluster × Summary)) (p : Cluster × Option Summary) :
    bestStep c w st p = st
    ∨ ∃ ps, p.2 = some ps ∧ p.1.topic = c.topic
        ∧ ¬(w = ∅ ∨ matchTextWords p.1.label ps.what_happened = ∅)
        ∧ st.1 < jaccard w (matchTextWords p.1.label ps.what_happened)
        ∧ bestStep c w st p =
            (jaccard w (matchTextWords p.1.label ps.what_happened), some (p.1, ps)) := by
  unfold bestStep
  by_cases ht : p.1.topic ≠ c.topic
  · rw [if_pos ht]
    left; rfl
  · rw [if_neg ht]
    cases hp : p.2 with
    | none => left; rfl
    | some ps =>
      dsimp only
      by_cases he : w = ∅ ∨ matchTextWords p.1.label ps.what_happened = ∅
      · rw [if_pos he]
        left; rfl
      · rw [if_neg he]
        by_cases hlt : st.1 < jaccard w (matchTextWords p.1.label ps.what_happened)
        · rw [if_pos hlt]
          right
          exact ⟨ps, rfl, not_not.mp ht, he, hlt, rfl⟩
        · rw [if_neg hlt]
          left; rfl

/-- The loop's final best score equals the maximum of the Jaccard
scores of the eligible prior pairs (skipped empty-word pairs score 0
and cannot change the maximum). -/
theorem foldl_bestStep_score (c : Cluster) (w : Finset String) :
    ∀ (l : List (Cluster × Option Summary)) (st : ℚ × Option (Cluster × Summary)),
      0 ≤ st.1 →
      (l.foldl (bestStep c w) st).1 = (l.filterMap (pairScore c w)).foldl max st.1 := by
  intro l
  induction l with
  | nil => intro st _; rfl
  | cons p rest ih =>
    intro st hst
    rw [List.foldl_cons]
    cases hp : p.2 with
    | none =>
      have hstep : bestStep c w st p = st := by
        unfold bestStep
        split
        · rfl
        · rw [hp]
      have hsc : pairScore c w p = none := by
        unfold pairScore
        rw [hp]
      rw [hstep, List.filterMap_cons_none hsc, ih st hst]
    | some ps =>
      by_cases ht : p.1.topic = c.topic
      · have hsc : pairScore c w p =
            some (jaccard w (matchTextWords p.1.label ps.what_happened)) := by
          simp [pairScore, hp, ht]
        rw [List.filterMap_cons_some hsc, List.foldl_cons]
        by_cases he : w = ∅ ∨ matchTextWords p.1.label ps.what_happened = ∅
        · have hstep : bestStep c w st p = st := by
            simp [bestStep, hp, ht, he]
          have hj0 : jaccard w (matchTextWords p.1.label ps.what_happened) = 0 :=
            jaccard_of_empty he
          rw [hstep, hj0, max_eq_left hst, ih st hst]
        · by_cases hlt : st.1 < jaccard w (matchTextWords p.1.label ps.what_happened)
          · have hstep : bestStep c w st p =
                (jaccard w (matchTextWords p.1.label ps.what_happened),
                  some (p.1, ps)) := by
              simp [bestStep, hp, ht, he, hlt]
            rw [hstep, max_eq_right (le_of_lt hlt)]
            exact ih _ (le_trans hst (le_of_lt hlt))
          · have hstep : bestStep c w st p = st := by
              simp [bestStep, hp, ht, he, hlt]
            rw [hstep, max_eq_left (not_lt.mp hlt)]
            exact ih st hst
      · have hstep : bestStep c w st p = st := by
          unfold bestStep
          rw [if_pos ht]
        have hsc : pairScore c w p = none := by
          simp [pairScore, hp, ht]
        rw [hstep, List.filterMap_cons_none hsc, ih st hst]

/-- Provenance of the selected pair: the loop either never updates the
accumulator, or its final selection is an eligible input pair whose
score is the final best score. -/
theorem foldl_bestStep_sel (c : Cluster) (w : Finset String) :
    ∀ (l : List (Cluster × Option Summary)) (st : ℚ × Option (Cluster × Summary)),
      l.foldl (bestStep c w) st = st
      ∨ ∃ pc ps, (l.foldl (bestStep c w) st).2 = some (pc, ps)
          ∧ (pc, some ps) ∈ l ∧ pc.topic = c.topic
          ∧ jaccard w (matchTextWords pc.label ps.what_happened) =
              (l.foldl (bestStep c w) st).1 := by
  intro l
  induction l with
  | nil => intro st; left; rfl
  | cons p rest ih =>
    intro st
    rw [List.foldl_cons]
    rcases ih (bestStep c w st p) with h | h
    · rw [h]
      rcases bestStep_eq_or c w st p with hst | ⟨ps, hp, ht, _, _, hupd⟩
      · rw [hst]
        left; rfl
      · right
        refine ⟨p.1, ps, ?_, ?_, ht, ?_⟩
        · rw [hupd]
        · have hpe : p = (p.1, some ps) := by
            rw [← hp]
          exact hpe ▸ List.mem_cons_self _ _
        · rw [hupd]
    · obtain ⟨pc, ps, h2, hm, ht, hj⟩ := h
      right
      exact ⟨pc, ps, h2, List.mem_cons_of_mem _ hm, ht, hj⟩

/-- C8: `_find_best_match` emits zero or one `Trend` per current
(cluster, summary) pair: none exactly when the best Jaccard word-set
similarity over the same-topic prior pairs carrying a summary is below
the 0.55 match threshold (in particular when no such pair exists, the
best is 0); otherwise the emitted trend is built from a same-topic
prior pair achieving that best score, and `_classify_trend` classifies
it on the ordinal confidence scale — "escalating" when the current
index is greater, "de-escalating" when lesser, "continuing" on equal
or unrecognized confidences. -/
theorem trend_match_threshold_and_classification
    (current : Cluster) (currentSummary : Summary)
    (prevPairs : List (Cluster × Option Summary)) :
    (findBestMatch current currentSummary prevPairs = none ↔
      bestJaccard current currentSummary prevPairs < matchThreshold)
    ∧ (∀ t, findBestMatch current currentSummary prevPairs = some t →
        matchThreshold ≤ bestJaccard current currentSummary prevPairs
        ∧ ∃ pc ps, (pc, some ps) ∈ prevPairs ∧ pc.topic = current.topic
            ∧ jaccard (matchTextWords current.label currentSummary.what_happened)
                (matchTextWords pc.label ps.what_happened)
              = bestJaccard current currentSummary prevPairs
            ∧ t.trend_type = classifyTrend currentSummary (some ps)
            ∧ t.topic = current.topic ∧ t.current_label = current.label
            ∧ t.previous_label = pc.label)
    ∧ (∀ cs ps ci pi, confIndex cs.confidence = some ci →
        confIndex ps.confidence = some pi →
        classifyTrend cs (some ps) =
          if pi < ci then "escalating"
          else if ci < pi then "de-escalating" else "continuing")
    ∧ (∀ cs ps, confIndex cs.confidence = none ∨ confIndex ps.confidence = none →
        classifyTrend cs (some ps) = "continuing") := by
  have hθpos : (0 : ℚ) < matchThreshold := by decide
  have hb1 : (prevPairs.foldl (bestStep current
        (matchTextWords current.label currentSummary.what_happened))
        ((0 : ℚ), none)).1
      = bestJaccard current currentSummary prevPairs := by
    unfold bestJaccard
    exact foldl_bestStep_score current _ prevPairs ((0 : ℚ), none) (le_refl 0)
  refine ⟨?_, ?_, ?_, ?_⟩
  · simp only [findBestMatch]
    by_cases hlt : (prevPairs.foldl (bestStep current
        (matchTextWords current.label currentSummary.what_happened))
        ((0 : ℚ), none)).1 < matchThreshold
    · rw [if_pos hlt]
      exact ⟨fun _ => hb1 ▸ hlt, fun _ => rfl⟩
    · rw [if_neg hlt]
      rcases foldl_bestStep_sel current
          (matchTextWords current.label currentSummary.what_happened) prevPairs
          ((0 : ℚ), none) with hfix | ⟨pc, ps, h2, hm, ht2, hj⟩
      · exact absurd (by rw [hfix]; exact hθpos) hlt
      · rw [h2]
        constructor
        · intro hcontra
          exact Option.noConfusion hcontra
        · intro habs
          exact absurd (by rw [hb1]; exact habs) hlt
  · intro t ht
    simp only [findBestMatch] at ht
    by_cases hlt : (prevPairs.foldl (bestStep current
        (matchTextWords current.label currentSummary.what_happened))
        ((0 : ℚ), none)).1 < matchThreshold
    · rw [if_pos hlt] at ht
      exact Option.noConfusion ht
    · rw [if_neg hlt] at ht
      rcases foldl_bestStep_sel current
          (matchTextWords current.label currentSummary.what_happened) prevPairs
          ((0 : ℚ), none) with hfix | ⟨pc, ps, h2, hm, ht2, hj⟩
      · exact absurd (by rw [hfix]; exact hθpos) hlt
      · rw [h2] at ht
        have hteq : t =
            { topic := current.topic,
              current_label := current.label,
              previous_label := pc.label,
              trend_type := classifyTrend currentSummary (some ps),
              description := "Story continues from previous run: \x27" ++
                pc.label ++ "\x27 → \x27" ++ current.label ++ "\x27" } := by
          cases ht
          rfl
        refine ⟨by rw [← hb1]; exact not_lt.mp hlt, pc, ps, hm, ht2, ?_, ?_, ?_, ?_, ?_⟩
        · rw [← hb1]; exact hj
        · rw [hteq]
        · rw [hteq]
        · rw [hteq]
        · rw [hteq]
  · intro cs ps ci pi hci hpi
    simp [classifyTrend, hci, hpi]
  · intro cs ps h
    rcases h with h | h
    · cases hx : confIndex ps.confidence <;> simp [classifyTrend, h, hx]
    · cases hx : confIndex cs.confidence <;> simp [classifyTrend, h, hx]

/-- Witness for `trend_match_threshold_and_classification`: with no
prior pairs the best score is 0, below the threshold, and no trend is
emitted; and a confirmed-over-developing match classifies as
escalating. -/
theorem trend_match_threshold_and_classification_witness :
    findBestMatch
      { topic := "tech", label := "ai advances", article_count := 1, run_id := 2,
        articles := [], id := some 1 }
      { cluster_id := some 1, depth := "briefing", what_happened := .str "chips",
        why_it_matters := .str "y", whats_next := .str "n",
        confidence := .str "confirmed", sources := .arr [] } [] = none
    ∧ classifyTrend
        { cluster_id := some 1, depth := "briefing", what_happened := .str "chips",
          why_it_matters := .str "y", whats_next := .str "n",
          confidence := .str "confirmed", sources := .arr [] }
        (some { cluster_id := some 9, depth := "briefing",
                what_happened := .str "chips", why_it_matters := .str "y",
                whats_next := .str "n", confidence := .str "developing",
                sources := .arr [] }) = "escalating" := by
  constructor
  · exact (trend_match_threshold_and_classification _ _ []).1.mpr (by decide)
  · exact (trend_match_threshold_and_classification
      { topic := "tech", label := "ai advances", article_count := 1, run_id := 2,
        articles := [], id := some 1 }
      { cluster_id := some 1, depth := "briefing", what_happened := .str "chips",
        why_it_matters := .str "y", whats_next := .str "n",
        confidence := .str "confirmed", sources := .arr [] } []).2.2.1 _ _ 3 1
      (by decide) (by decide)

end Moat
